import Mathlib

/-
Verification of the goshs file server request pipeline, a shallow embedding of
`internal/myhttp/fileserver.go`.

Go strings are modelled by Lean `String` (Go compares strings byte-wise; on
valid UTF-8 this agrees with Lean's character-wise comparison, since UTF-8
preserves code-point order).  Byte slices are modelled by `List Nat` with each
element below 256.  Filesystem and network effects are modelled by explicit
oracles and event traces.
-/

namespace Goshs

/-- The `FileServer` configuration struct of `fileserver.go` (lines 32-40). -/
structure FileServer where
  Port : Nat
  Webroot : String
  SSL : Bool
  SelfSigned : Bool
  MyKey : String
  MyCert : String
  BasicAuth : String

/-- Per-request data read by the handlers: `req.RemoteAddr`, `req.Method`,
`req.URL.Path`, `req.Proto`. -/
structure Request where
  remoteAddr : String
  method : String
  urlPath : String
  proto : String

/-- `path[0] == '/'` — the rootedness test of the Go `path` package. -/
def isRooted (s : String) : Bool :=
  match s.data with
  | c :: _ => c = '/'
  | [] => false

/-- Modelled from the Go standard library `strings.Split` restricted to a
single-character separator: split a character list at every occurrence of
`sep`, keeping empty fields (so `"/docs/"` splits into `["", "docs", ""]`). -/
def goSplit (sep : Char) : List Char → List (List Char)
  | [] => [[]]
  | c :: t =>
      match goSplit sep t with
      | h :: r => if c = sep then [] :: h :: r else (c :: h) :: r
      | [] => [[c]]

/-- `strings.Split(s, "/")` as a function on `String`. -/
def splitSlash (s : String) : List String :=
  (goSplit '/' s.data).map String.mk

/-- A path element that survives `path.Clean`: not empty, not `"."`, not
`".."`. -/
def goodSeg (s : String) : Prop :=
  s ≠ "" ∧ s ≠ "." ∧ s ≠ ".."

/-- One step of the segment-stack formulation of `path.Clean`: empty and `"."`
elements are dropped, `".."` pops the last kept element (on a rooted path a
`".."` at the root is discarded; on an unrooted path it is accumulated), and
any other element is kept.  The accumulator holds the kept elements in
reverse order. -/
def cleanStep (rooted : Bool) (acc : List String) (seg : String) : List String :=
  if seg = "" ∨ seg = "." then acc
  else if seg = ".." then
    match acc with
    | [] => if rooted then [] else [".."]
    | a :: rest => if a = ".." then ".." :: a :: rest else rest
  else seg :: acc

/-- The kept path elements of `path.Clean`, in order. -/
def cleanSegs (rooted : Bool) (segs : List String) : List String :=
  (segs.foldl (cleanStep rooted) []).reverse

/-- Modelled from the Go standard library `path.Clean` (lazybuf algorithm),
in its equivalent segment-stack formulation: split on `'/'`, process the
elements with `cleanStep`, and reassemble, restoring the leading `'/'` for
rooted paths and returning `"."` when nothing remains of an unrooted path. -/
def pathClean (p : String) : String :=
  if p = "" then "."
  else if isRooted p then
    "/" ++ String.intercalate "/" (cleanSegs true (splitSlash p))
  else
    let body := String.intercalate "/" (cleanSegs false (splitSlash p))
    if body = "" then "." else body

/-- Modelled from the Go standard library `path.Join` for two elements:
empty elements are skipped and the result is cleaned. -/
def pathJoin (a b : String) : String :=
  if a ≠ "" then pathClean (a ++ "/" ++ b)
  else if b ≠ "" then pathClean b
  else ""

/-- The absolute filesystem path that the GET handler opens
(`fileserver.go` lines 143-156): `nothing` for the `/favicon.ico`
special case, otherwise `fs.Webroot + path.Clean(upath)`. -/
def resolveOpenPath (fs : FileServer) (upath : String) : Option String :=
  if upath = "/favicon.ico" then none
  else some (fs.Webroot ++ pathClean upath)

/-- `p` lies within the served root `root`: it is `root` followed by `"/"`
followed by slash-joined path elements none of which is empty, `"."` or
`".."` — so no traversal below `root` is expressed by `p`. -/
def withinRoot (root p : String) : Prop :=
  ∃ segs : List String, (∀ s ∈ segs, goodSeg s) ∧
    p = root ++ "/" ++ String.intercalate "/" segs

lemma cleanStep_rooted_inv {acc : List String} {seg : String}
    (h : ∀ s ∈ acc, goodSeg s) :
    ∀ s ∈ cleanStep true acc seg, goodSeg s := by
  by_cases h1 : seg = "" ∨ seg = "."
  · simpa [cleanStep, h1] using h
  · by_cases h2 : seg = ".."
    · cases acc with
      | nil => simp [cleanStep, h1, h2]
      | cons a rest =>
          have ha := h a (by simp)
          simp only [cleanStep, if_neg h1, if_pos h2, if_neg ha.2.2]
          exact fun s hs => h s (List.mem_cons_of_mem a hs)
    · simp only [cleanStep, if_neg h1, if_neg h2]
      intro s hs
      rcases List.mem_cons.mp hs with rfl | hs
      · exact ⟨fun he => h1 (Or.inl he), fun he => h1 (Or.inr he), h2⟩
      · exact h s hs

lemma foldl_cleanStep_rooted_inv (l : List String) :
    ∀ acc : List String, (∀ s ∈ acc, goodSeg s) →
      ∀ s ∈ l.foldl (cleanStep true) acc, goodSeg s := by
  induction l with
  | nil => intro acc h; simpa using h
  | cons x t ih => intro acc h; exact ih _ (cleanStep_rooted_inv h)

lemma cleanSegs_rooted_good (l : List String) :
    ∀ s ∈ cleanSegs true l, goodSeg s := by
  intro s hs
  exact foldl_cleanStep_rooted_inv l [] (by simp) s (List.mem_reverse.mp hs)

lemma string_append_assoc (a b c : String) : a ++ b ++ c = a ++ (b ++ c) := by
  apply congrArg String.mk
  show (a.data ++ b.data) ++ c.data = a.data ++ (b.data ++ c.data)
  exact List.append_assoc a.data b.data c.data

/-- C1: for every GET request path (HTTP request paths begin with `/`), the
filesystem path the handler opens — when it opens one at all, i.e. outside
the `/favicon.ico` special case — equals `Webroot ++ path.Clean(upath)`, and
that path lies within the served root: cleaning a rooted path leaves no
`".."` (or empty or `"."`) elements, so traversal sequences cannot escape
the root. -/
theorem goshs_C1_confinement (fs : FileServer) (upath : String)
    (hroot : isRooted upath = true) (p : String)
    (hp : resolveOpenPath fs upath = some p) :
    p = fs.Webroot ++ pathClean upath ∧ withinRoot fs.Webroot p := by
  have hne : upath ≠ "" := by
    intro he
    rw [he] at hroot
    exact absurd hroot (by decide)
  have hcl : pathClean upath =
      "/" ++ String.intercalate "/" (cleanSegs true (splitSlash upath)) := by
    rw [pathClean, if_neg hne, if_pos hroot]
  rw [resolveOpenPath] at hp
  split at hp
  · exact absurd hp (by simp)
  · have hpe : fs.Webroot ++ pathClean upath = p := Option.some.inj hp
    subst hpe
    refine ⟨rfl, ?_⟩
    refine ⟨cleanSegs true (splitSlash upath), cleanSegs_rooted_good _, ?_⟩
    rw [hcl, string_append_assoc]

/-- Witness for C1 at the traversal request path `/../../etc/passwd` served
from root `/srv`: the handler opens `/srv/etc/passwd`, which is inside the
root. -/
theorem goshs_C1_confinement_witness :
    isRooted "/../../etc/passwd" = true ∧
    ("/srv/etc/passwd" = "/srv" ++ pathClean "/../../etc/passwd" ∧
      withinRoot "/srv" "/srv/etc/passwd") :=
  ⟨by decide,
   goshs_C1_confinement ⟨8000, "/srv", false, false, "", "", ""⟩
     "/../../etc/passwd" (by decide) "/srv/etc/passwd" (by decide)⟩

/-- Modelled from the Go standard library `url.shouldEscape` for
`encodePathSegment` (the mode of `url.PathEscape`): a byte is left unescaped
iff it is alphanumeric, one of `- _ . ~`, or one of the sub-delimiters
`$ & + : = @` that `PathEscape` keeps (`/ ; , ?` are escaped). -/
def pathSegUnescaped (b : Nat) : Bool :=
  (97 ≤ b && b ≤ 122) || (65 ≤ b && b ≤ 90) || (48 ≤ b && b ≤ 57) ||
  b == 45 || b == 95 || b == 46 || b == 126 ||
  b == 36 || b == 38 || b == 43 || b == 58 || b == 61 || b == 64

/-- The upper-case hex digit byte for a nibble, as Go's `"0123456789ABCDEF"`
table. -/
def upperHexDigit (n : Nat) : Nat :=
  if n < 10 then 48 + n else 55 + n

/-- Escape one byte as `url.PathEscape` does: kept verbatim, or `%` followed
by two upper-case hex digits. -/
def escapeByte (b : Nat) : List Nat :=
  if pathSegUnescaped b then [b] else [37, upperHexDigit (b / 16), upperHexDigit (b % 16)]

/-- Modelled from the Go standard library `url.PathEscape` on the UTF-8
bytes of the string. -/
def pathEscape : List Nat → List Nat
  | [] => []
  | b :: t => escapeByte b ++ pathEscape t

/-- `0-9`, `a-f`, `A-F`. -/
def isHexDigit (b : Nat) : Bool :=
  (48 ≤ b && b ≤ 57) || (97 ≤ b && b ≤ 102) || (65 ≤ b && b ≤ 70)

/-- Value of a hex digit byte. -/
def unhex (b : Nat) : Nat :=
  if 48 ≤ b && b ≤ 57 then b - 48
  else if 97 ≤ b && b ≤ 102 then b - 97 + 10
  else b - 65 + 10

/-- Modelled from the Go standard library `url.PathUnescape`: a `%` must be
followed by two hex digits (otherwise an `EscapeError`, modelled as `none`),
and every other byte is passed through (`+` is kept as-is in path mode). -/
def pathUnescape : List Nat → Option (List Nat)
  | [] => some []
  | b :: rest =>
      if b = 37 then
        match rest with
        | h1 :: h2 :: t =>
            if isHexDigit h1 && isHexDigit h2 then
              (pathUnescape t).map (fun u => (16 * unhex h1 + unhex h2) :: u)
            else none
        | _ => none
      else (pathUnescape rest).map (fun u => b :: u)

lemma pathUnescape_cons {b : Nat} (rest : List Nat) (hb : b ≠ 37) :
    pathUnescape (b :: rest) = (pathUnescape rest).map (fun u => b :: u) := by
  rw [pathUnescape.eq_def]
  simp [hb]

lemma pathUnescape_percent {h1 h2 : Nat} (t : List Nat)
    (hh1 : isHexDigit h1 = true) (hh2 : isHexDigit h2 = true) :
    pathUnescape (37 :: h1 :: h2 :: t) =
      (pathUnescape t).map (fun u => (16 * unhex h1 + unhex h2) :: u) := by
  rw [pathUnescape.eq_def]
  simp [hh1, hh2]

lemma hexDigit_roundTrip :
    ∀ x : Nat, x < 16 → isHexDigit (upperHexDigit x) = true ∧ unhex (upperHexDigit x) = x := by
  decide

lemma pathSegUnescaped_ne_percent {b : Nat} (h : pathSegUnescaped b = true) : b ≠ 37 := by
  intro he
  rw [he] at h
  exact absurd h (by decide)

theorem pathUnescape_pathEscape (s : List Nat) (hs : ∀ b ∈ s, b < 256) :
    pathUnescape (pathEscape s) = some s := by
  induction s with
  | nil => rfl
  | cons b t ih =>
      have hb : b < 256 := hs b (List.mem_cons_self b t)
      have ht : ∀ x ∈ t, x < 256 := fun x hx => hs x (List.mem_cons_of_mem b hx)
      cases hpb : pathSegUnescaped b with
      | true =>
          have hb37 : b ≠ 37 := pathSegUnescaped_ne_percent hpb
          have he : pathEscape (b :: t) = b :: pathEscape t := by
            simp [pathEscape, escapeByte, hpb]
          rw [he, pathUnescape_cons _ hb37, ih ht, Option.map_some']
      | false =>
          have h1 : b / 16 < 16 := by omega
          have h2 : b % 16 < 16 := by omega
          obtain ⟨hh1, hu1⟩ := hexDigit_roundTrip _ h1
          obtain ⟨hh2, hu2⟩ := hexDigit_roundTrip _ h2
          have he : pathEscape (b :: t) =
              37 :: upperHexDigit (b / 16) :: upperHexDigit (b % 16) :: pathEscape t := by
            simp [pathEscape, escapeByte, hpb]
          rw [he, pathUnescape_percent _ hh1 hh2, ih ht, Option.map_some', hu1, hu2,
            Nat.div_add_mod b 16]

/-- The UTF-8 bytes of a string, as naturals (the byte list underlying
`String.toUTF8`). -/
def strBytes (s : String) : List Nat :=
  (s.data.flatMap String.utf8EncodeChar).map (fun b => b.toNat)

lemma strBytes_lt (s : String) : ∀ b ∈ strBytes s, b < 256 := by
  intro b hb
  simp only [strBytes, List.mem_map] at hb
  obtain ⟨u, _, rfl⟩ := hb
  exact u.toNat_lt

/-- The link URI bytes that `processDir` renders for a child named `name` of
the directory at request path `relpath` (`fileserver.go` line 247):
`url.PathEscape(path.Join(relpath, name))`. -/
def itemURIBytes (relpath name : String) : List Nat :=
  pathEscape (strBytes (pathJoin relpath name))

/-- C7: percent-decoding the rendered link URI of any directory child
recovers exactly the relative path obtained by joining the request path with
the child's base name — the percent-encoding round-trips. -/
theorem goshs_C7_uri_roundtrip (relpath name : String) :
    pathUnescape (itemURIBytes relpath name) = some (strBytes (pathJoin relpath name)) :=
  pathUnescape_pathEscape _ (strBytes_lt _)

/-- The `item` struct rendered in a directory listing (`fileserver.go`
lines 26-29), with the link URI at the byte level. -/
structure Item where
  URI : List Nat
  Name : String
deriving DecidableEq

/-- The fields of an `os.FileInfo` that `processDir` reads: `Name()` and
`IsDir()`. -/
structure GoFileInfo where
  name : String
  isDir : Bool
deriving DecidableEq

/-- One loop iteration of `processDir` (`fileserver.go` lines 244-259): the
URI percent-encodes `path.Join(relpath, name)` (computed before the
directory marker is appended), and directory display names get a trailing
`"/"`. -/
def mkItem (relpath : String) (fi : GoFileInfo) : Item :=
  { URI := itemURIBytes relpath fi.name,
    Name := if fi.isDir then fi.name ++ "/" else fi.name }

/-- The item slice `processDir` builds before sorting, in enumeration
order. -/
def processDirItems (relpath : String) (fis : List GoFileInfo) : List Item :=
  fis.map (mkItem relpath)

/-- Modelled from the Go standard library `strings.ToLower`, restricted to
the ASCII case mapping (the display names in question are ASCII). -/
def goToLower (s : String) : String :=
  ⟨s.data.map Char.toLower⟩

/-- Strict byte-wise lexicographic order — Go's `<` on strings compares the
underlying bytes. -/
def bytesLt : List Nat → List Nat → Bool
  | _, [] => false
  | [], _ :: _ => true
  | a :: as, b :: bs => if a < b then true else if a = b then bytesLt as bs else false

/-- Non-strict byte-wise lexicographic order. -/
def bytesLe : List Nat → List Nat → Bool
  | [], _ => true
  | _ :: _, [] => false
  | a :: as, b :: bs => if a < b then true else if a = b then bytesLe as bs else false

/-- Go's `a < b` on strings: byte-wise lexicographic comparison of the
UTF-8 bytes. -/
def goStringLt (a b : String) : Bool :=
  bytesLt (strBytes a) (strBytes b)

/-- The comparison closure passed to `sort.Slice` (`fileserver.go` lines
262-264): `strings.ToLower(items[i].Name) < strings.ToLower(items[j].Name)`. -/
def itemLess (a b : Item) : Bool :=
  goStringLt (goToLower a.Name) (goToLower b.Name)

lemma bytesLt_false_le : ∀ {x y : List Nat}, bytesLt x y = false → bytesLe y x = true := by
  intro x y
  induction x generalizing y with
  | nil =>
      cases y with
      | nil => intro; rfl
      | cons b bs => intro h; exact absurd h (by simp [bytesLt])
  | cons a as ih =>
      cases y with
      | nil => intro; rfl
      | cons b bs =>
          intro h
          simp only [bytesLt] at h
          simp only [bytesLe]
          by_cases hab : a < b
          · rw [if_pos hab] at h; exact absurd h (by simp)
          · rw [if_neg hab] at h
            by_cases heq : a = b
            · subst heq
              rw [if_pos rfl] at h
              rw [if_neg (lt_irrefl a), if_pos rfl]
              exact ih h
            · have hba : b < a := by omega
              rw [if_pos hba]

/-- Modelled from the Go standard library contract of `sort.Slice`: the
resulting slice is a permutation of the input in which no element is `less`
than an earlier one.  `sort.Slice` explicitly does **not** guarantee a
stable sort (that is `sort.SliceStable`), so any such permutation is an
admissible result. -/
def sortSliceRel (less : Item → Item → Bool) (input output : List Item) : Prop :=
  output.Perm input ∧ output.Pairwise (fun a b => less b a = false)

/-- C2 counterexample: a directory with children `A.txt` and `a.txt`
(enumerated in that order) whose lowercased display names are equal.  The
output that swaps them satisfies the contract of the `sort.Slice` call in
`processDir`, yet the two distinct entries do not appear in their original
enumeration order — `sort.Slice` is not stable, so the claimed tie-breaking
is not guaranteed by the code. -/
theorem goshs_C2_counterexample :
    sortSliceRel itemLess
      (processDirItems "/" [⟨"A.txt", false⟩, ⟨"a.txt", false⟩])
      [mkItem "/" ⟨"a.txt", false⟩, mkItem "/" ⟨"A.txt", false⟩] ∧
    goToLower (mkItem "/" ⟨"A.txt", false⟩).Name =
      goToLower (mkItem "/" ⟨"a.txt", false⟩).Name ∧
    mkItem "/" ⟨"A.txt", false⟩ ≠ mkItem "/" ⟨"a.txt", false⟩ ∧
    [mkItem "/" ⟨"a.txt", false⟩, mkItem "/" ⟨"A.txt", false⟩] ≠
      processDirItems "/" [⟨"A.txt", false⟩, ⟨"a.txt", false⟩] := by
  refine ⟨⟨?_, ?_⟩, by decide, by decide, by decide⟩
  · exact List.Perm.swap _ _ _
  · decide

/-- C2 (amended): every rendered entry sequence is a permutation of the
enumerated entries that is sorted ascending by case-insensitive comparison
of display name; the relative order of entries with equal lowercased names
is not guaranteed. -/
theorem goshs_C2_sorted_ci (relpath : String) (fis : List GoFileInfo)
    (out : List Item)
    (h : sortSliceRel itemLess (processDirItems relpath fis) out) :
    out.Perm (processDirItems relpath fis) ∧
    out.Pairwise (fun a b =>
      bytesLe (strBytes (goToLower a.Name)) (strBytes (goToLower b.Name)) = true) := by
  refine ⟨h.1, List.Pairwise.imp ?_ h.2⟩
  intro a b hab
  simp only [itemLess, goStringLt] at hab
  exact bytesLt_false_le hab

/-- Witness for C2 (amended) at the spec's example: children `Banana` and
`apple` render in the order `["apple", "Banana"]`, which the theorem shows
sorted case-insensitively. -/
theorem goshs_C2_sorted_ci_witness :
    sortSliceRel itemLess
      (processDirItems "/" [⟨"Banana", false⟩, ⟨"apple", false⟩])
      [mkItem "/" ⟨"apple", false⟩, mkItem "/" ⟨"Banana", false⟩] ∧
    ([mkItem "/" ⟨"apple", false⟩, mkItem "/" ⟨"Banana", false⟩].Perm
      (processDirItems "/" [⟨"Banana", false⟩, ⟨"apple", false⟩]) ∧
     [mkItem "/" ⟨"apple", false⟩, mkItem "/" ⟨"Banana", false⟩].Pairwise
      (fun a b =>
        bytesLe (strBytes (goToLower a.Name)) (strBytes (goToLower b.Name)) = true)) := by
  have hrel : sortSliceRel itemLess
      (processDirItems "/" [⟨"Banana", false⟩, ⟨"apple", false⟩])
      [mkItem "/" ⟨"apple", false⟩, mkItem "/" ⟨"Banana", false⟩] := by
    exact ⟨List.Perm.swap _ _ _, by decide⟩
  exact ⟨hrel, goshs_C2_sorted_ci "/" _ _ hrel⟩

/-- Observable actions of a request handler: access-log entries
(`mylog.LogRequest`), diagnostic log lines (`mylog.LogMessage` /
`log.Println`), themed template pages, file/directory response bodies and
redirects. -/
inductive Event where
  | access (remoteAddr method path proto status : String)
  | message (text : String)
  | logErr (text : String)
  | page (template : String)
  | fileBody
  | dirListing (path : String)
  | redirect (target : String) (status : Nat)
deriving DecidableEq

/-- Outcome of `os.Open` on the resolved path, as the handler distinguishes
it: `os.IsNotExist(err)`, `os.IsPermission(err)`, any other error, or
success (with `Stat().IsDir()`). -/
inductive OpenResult where
  | notExist
  | permission
  | otherErr (msg : String)
  | ok (isDir : Bool)

/-- `handle404` (`fileserver.go` lines 278-284): access log with status
`"404"`, diagnostic message, themed 404 page. -/
def handle404 (req : Request) : List Event :=
  [.access req.remoteAddr req.method req.urlPath req.proto "404",
   .message "404:   File not found",
   .page "404"]

/-- `handle500` (`fileserver.go` lines 286-292): access log with status
`"500"`, diagnostic message, themed 500 page. -/
def handle500 (req : Request) : List Event :=
  [.access req.remoteAddr req.method req.urlPath req.proto "500",
   .message "500:   No permission to access the file",
   .page "500"]

/-- The GET handler (`fileserver.go` lines 143-184) as an event trace:
favicon is a no-op; otherwise `Webroot + path.Clean(upath)` is opened and
the open outcome dispatches to the 404 path, the 500 path, a bare log line,
or the 200 access log followed by directory listing / file delivery. -/
def handler (fs : FileServer) (req : Request) (openRes : String → OpenResult) :
    List Event :=
  if req.urlPath = "/favicon.ico" then []
  else
    match openRes (fs.Webroot ++ pathClean req.urlPath) with
    | .notExist => handle404 req
    | .permission => handle500 req
    | .otherErr m => [.logErr m]
    | .ok isDir =>
        .access req.remoteAddr req.method req.urlPath req.proto "200" ::
          (if isDir then [.dirListing req.urlPath] else [.fileBody])

/-- C4: when opening the resolved path of a (non-favicon) GET request fails
as not-found, the trace is exactly the `"404"` access-log entry, the
diagnostic message and the themed 404 page; when it fails as
permission-denied, exactly the `"500"` access-log entry, the diagnostic
message and the themed 500 page.  The equalities are to complete traces, so
handling stops there in both cases. -/
theorem goshs_C4_error_escalation (fs : FileServer) (req : Request)
    (openRes : String → OpenResult) (hfav : req.urlPath ≠ "/favicon.ico") :
    (openRes (fs.Webroot ++ pathClean req.urlPath) = .notExist →
      handler fs req openRes =
        [.access req.remoteAddr req.method req.urlPath req.proto "404",
         .message "404:   File not found",
         .page "404"]) ∧
    (openRes (fs.Webroot ++ pathClean req.urlPath) = .permission →
      handler fs req openRes =
        [.access req.remoteAddr req.method req.urlPath req.proto "500",
         .message "500:   No permission to access the file",
         .page "500"]) := by
  constructor <;> intro h <;> simp only [handler, if_neg hfav, h] <;> rfl

/-- Witness for C4 at the spec's example: a GET for `/missing/file.txt`
whose open fails as not-found yields the 404 trace. -/
theorem goshs_C4_error_escalation_witness :
    ("/missing/file.txt" : String) ≠ "/favicon.ico" ∧
    handler ⟨8000, "/srv", false, false, "", "", ""⟩
      ⟨"1.2.3.4:5", "GET", "/missing/file.txt", "HTTP/1.1"⟩
      (fun _ => .notExist) =
      [.access "1.2.3.4:5" "GET" "/missing/file.txt" "HTTP/1.1" "404",
       .message "404:   File not found",
       .page "404"] :=
  ⟨by decide,
   (goshs_C4_error_escalation ⟨8000, "/srv", false, false, "", "", ""⟩
     ⟨"1.2.3.4:5", "GET", "/missing/file.txt", "HTTP/1.1"⟩
     (fun _ => .notExist) (by decide)).1 rfl⟩

/-- Result of the basic-auth wrapper on one request: whether the
`WWW-Authenticate` header was set, whether a 401 was written, and whether
the wrapped `fs.ServeHTTP` was invoked. -/
structure AuthStep where
  wwwAuthHeader : Option String
  status401 : Bool
  downstreamRan : Bool
deriving DecidableEq

/-- The challenge value set by `basicAuth` (`fileserver.go` line 55). -/
def challengeHeader : String := "Basic realm=\"Restricted\""

/-- `basicAuth` (`fileserver.go` lines 53-70): the challenge header is set
unconditionally; a missing/unparsable Authorization header, a username
other than `"gopher"`, or a password different from the configured secret
yields a 401 without invoking the wrapped handler; otherwise the wrapped
handler runs.  `creds` is the result of `req.BasicAuth()`. -/
def basicAuth (secret : String) (creds : Option (String × String)) : AuthStep :=
  match creds with
  | none => { wwwAuthHeader := some challengeHeader, status401 := true, downstreamRan := false }
  | some (u, p) =>
      if u ≠ "gopher" ∨ p ≠ secret then
        { wwwAuthHeader := some challengeHeader, status401 := true, downstreamRan := false }
      else
        { wwwAuthHeader := some challengeHeader, status401 := false, downstreamRan := true }

/-- The router selection of `Start` (`fileserver.go` lines 75-83): with a
configured secret every request passes through `basicAuth`; with no secret
the server is hooked up directly and requests pass through unmodified. -/
def startGate (fs : FileServer) (creds : Option (String × String)) : AuthStep :=
  if fs.BasicAuth ≠ "" then basicAuth fs.BasicAuth creds
  else { wwwAuthHeader := none, status401 := false, downstreamRan := true }

/-- C3: with a configured secret, a request with no credentials, a username
other than the hardcoded `"gopher"`, or a wrong password gets a 401 carrying
the `WWW-Authenticate` challenge and the downstream handler does not run; a
request with `"gopher"` and the configured secret is forwarded to normal
dispatch; with no secret configured, every request passes through
unmodified. -/
theorem goshs_C3_auth_gate (fs : FileServer) (creds : Option (String × String)) :
    (fs.BasicAuth ≠ "" →
      ((creds = none →
          startGate fs creds = ⟨some challengeHeader, true, false⟩) ∧
       (∀ u p, creds = some (u, p) → u ≠ "gopher" →
          startGate fs creds = ⟨some challengeHeader, true, false⟩) ∧
       (∀ u p, creds = some (u, p) → p ≠ fs.BasicAuth →
          startGate fs creds = ⟨some challengeHeader, true, false⟩) ∧
       (creds = some ("gopher", fs.BasicAuth) →
          startGate fs creds = ⟨some challengeHeader, false, true⟩))) ∧
    (fs.BasicAuth = "" →
      startGate fs creds = ⟨none, false, true⟩) := by
  constructor
  · intro hsec
    refine ⟨?_, ?_, ?_, ?_⟩
    · rintro rfl
      simp [startGate, basicAuth, hsec]
    · rintro u p rfl hu
      simp [startGate, basicAuth, hsec, hu]
    · rintro u p rfl hp
      have : u ≠ "gopher" ∨ p ≠ fs.BasicAuth := Or.inr hp
      simp [startGate, basicAuth, hsec, if_pos this]
    · rintro rfl
      simp [startGate, basicAuth, hsec]
  · intro hsec
    simp [startGate, hsec]

/-- Witness for C3 with secret `"s3cret"`: no header gives 401 with the
challenge, `gopher:s3cret` is forwarded, `gopher:wrong` gives 401. -/
theorem goshs_C3_auth_gate_witness :
    startGate ⟨8000, "/srv", false, false, "", "", "s3cret"⟩ none =
      ⟨some challengeHeader, true, false⟩ ∧
    startGate ⟨8000, "/srv", false, false, "", "", "s3cret"⟩
      (some ("gopher", "s3cret")) = ⟨some challengeHeader, false, true⟩ ∧
    startGate ⟨8000, "/srv", false, false, "", "", "s3cret"⟩
      (some ("gopher", "wrong")) = ⟨some challengeHeader, true, false⟩ :=
  ⟨((goshs_C3_auth_gate ⟨8000, "/srv", false, false, "", "", "s3cret"⟩ none).1
      (by decide)).1 rfl,
   ((goshs_C3_auth_gate ⟨8000, "/srv", false, false, "", "", "s3cret"⟩
      (some ("gopher", "s3cret"))).1 (by decide)).2.2.2 rfl,
   ((goshs_C3_auth_gate ⟨8000, "/srv", false, false, "", "", "s3cret"⟩
      (some ("gopher", "wrong"))).1 (by decide)).2.2.1 "gopher" "wrong" rfl
      (by decide)⟩

/-- Oracles for the fallible steps of `upload`: the `req.FormFile("file")`
result (payload bytes and `handler.Filename` on success, `none` on error),
and the success of `os.Create`, `ioutil.ReadAll` and `ioutil.WriteFile`. -/
structure UploadEnv where
  formFile : Option (List Nat × String)
  createOk : Bool
  readOk : Bool
  writeOk : Bool

/-- What one request's handling did: its event trace, the resulting
filesystem contents (path → file bytes), and the panic value if the handler
aborted by panicking. -/
structure HandlerOutcome where
  events : List Event
  files : String → Option (List Nat)
  panicked : Option String

/-- Point update of the modelled filesystem. -/
def fsUpdate (disk : String → Option (List Nat)) (k : String) (v : List Nat) :
    String → Option (List Nat) :=
  fun x => if x = k then some v else disk x

/-- The POST handler `upload` (`fileserver.go` lines 187-231).

When `FormFile` fails it returns nil `file` and `handler`; the code only
logs the error and continues, so the next step — reading `handler.Filename`
while building `savepath` — dereferences a nil pointer and panics before any
filesystem operation; during unwinding the deferred `file.Close()` on the
nil `file` interface panics as well (that latter panic is the one the
request-boundary recover receives).  This is modelled as an outcome that
leaves the filesystem untouched and carries the runtime's nil-dereference
panic value.

On the success path: the target directory is the request path with its
final `/`-separated element stripped (`strings.Split` / slicing /
`strings.Join`), `savepath` is `Webroot + target + "/" + Filename`, and each
of create / read / write that fails logs an error line and renders the 500
path via `handle500` but execution continues; finally the access is logged
with status `"200"` and a 303 redirect to `target` is written.  `os.Create`
truncates (possibly pre-existing) `savepath` to empty; `ioutil.WriteFile`
then writes the bytes read (nil when `ReadAll` failed); no collision check
is performed at any point. -/
def upload (fs : FileServer) (req : Request) (env : UploadEnv)
    (disk : String → Option (List Nat)) : HandlerOutcome :=
  match env.formFile with
  | none =>
      { events := [.logErr "Error retrieving the file"],
        files := disk,
        panicked := some "runtime error: invalid memory address or nil pointer dereference" }
  | some (content, filename) =>
      let target := String.intercalate "/" ((splitSlash req.urlPath).dropLast)
      let savepath := fs.Webroot ++ target ++ "/" ++ filename
      let createEvents :=
        if env.createOk then []
        else .logErr "ERROR:   Not able to create file on disk" :: handle500 req
      let disk1 := if env.createOk then fsUpdate disk savepath [] else disk
      let fileBytes := if env.readOk then content else []
      let readEvents :=
        if env.readOk then []
        else .logErr "ERROR:   Not able to read file from request" :: handle500 req
      let writeEvents :=
        if env.writeOk then []
        else .logErr "ERROR:   Not able to write file to disk" :: handle500 req
      let disk2 := if env.writeOk then fsUpdate disk1 savepath fileBytes else disk1
      { events := createEvents ++ readEvents ++ writeEvents ++
          [.access req.remoteAddr req.method req.urlPath req.proto "200",
           .redirect target 303],
        files := disk2,
        panicked := none }

/-- C5: with a file part present, each of the three filesystem steps that
fails triggers the 500 error page, and execution continues past every
failure: the trailing `"200"` access log and the 303 redirect always
happen, and (create failure notwithstanding) a succeeding write still
writes the payload. -/
theorem goshs_C5_upload_best_effort (fs : FileServer) (req : Request)
    (env : UploadEnv) (disk : String → Option (List Nat))
    (content : List Nat) (filename : String)
    (hf : env.formFile = some (content, filename)) :
    let out := upload fs req env disk
    let target := String.intercalate "/" ((splitSlash req.urlPath).dropLast)
    let savepath := fs.Webroot ++ target ++ "/" ++ filename
    (env.createOk = false → Event.page "500" ∈ out.events) ∧
    (env.readOk = false → Event.page "500" ∈ out.events) ∧
    (env.writeOk = false → Event.page "500" ∈ out.events) ∧
    Event.redirect target 303 ∈ out.events ∧
    Event.access req.remoteAddr req.method req.urlPath req.proto "200" ∈ out.events ∧
    (env.writeOk = true →
      out.files savepath = some (if env.readOk then content else [])) := by
  intro out target savepath
  have hout : out = upload fs req env disk := rfl
  cases hc : env.createOk <;> cases hr : env.readOk <;> cases hw : env.writeOk <;>
    simp [hout, upload, hf, hc, hr, hw, handle500, fsUpdate, target, savepath]

/-- Witness for C5: a create failure (read and write succeeding) on an
upload of `report.txt` to `/docs/` still reaches the redirect, and the
payload is written. -/
theorem goshs_C5_upload_best_effort_witness :
    ((⟨some ([104, 105], "report.txt"), false, true, true⟩ : UploadEnv).formFile =
        some ([104, 105], "report.txt")) ∧
    (Event.page "500" ∈
      (upload ⟨8000, "/srv", false, false, "", "", ""⟩
        ⟨"1.2.3.4:5", "POST", "/docs/", "HTTP/1.1"⟩
        ⟨some ([104, 105], "report.txt"), false, true, true⟩ (fun _ => none)).events ∧
     Event.redirect (String.intercalate "/" ((splitSlash "/docs/").dropLast)) 303 ∈
      (upload ⟨8000, "/srv", false, false, "", "", ""⟩
        ⟨"1.2.3.4:5", "POST", "/docs/", "HTTP/1.1"⟩
        ⟨some ([104, 105], "report.txt"), false, true, true⟩ (fun _ => none)).events) := by
  have h := goshs_C5_upload_best_effort ⟨8000, "/srv", false, false, "", "", ""⟩
    ⟨"1.2.3.4:5", "POST", "/docs/", "HTTP/1.1"⟩
    ⟨some ([104, 105], "report.txt"), false, true, true⟩ (fun _ => none)
    [104, 105] "report.txt" rfl
  exact ⟨rfl, h.1 rfl, h.2.2.2.1⟩

/-- C6: a fully successful upload of payload `content` under filename
`filename` writes `content` byte-identically to
`Webroot + target + "/" + filename`, where `target` is the request path
with its final path segment stripped — regardless of what `disk` previously
held at that path (silent overwrite, no collision check) — and responds
with the `"200"` access log followed by a 303 redirect to `target`. -/
theorem goshs_C6_upload_success (fs : FileServer) (req : Request)
    (disk : String → Option (List Nat)) (content : List Nat) (filename : String) :
    let env : UploadEnv := ⟨some (content, filename), true, true, true⟩
    let target := String.intercalate "/" ((splitSlash req.urlPath).dropLast)
    let savepath := fs.Webroot ++ target ++ "/" ++ filename
    let out := upload fs req env disk
    out.files savepath = some content ∧
    out.events =
      [.access req.remoteAddr req.method req.urlPath req.proto "200",
       .redirect target 303] ∧
    out.panicked = none := by
  intro env target savepath out
  refine ⟨?_, rfl, rfl⟩
  show (fsUpdate (fsUpdate disk savepath []) savepath content) savepath = some content
  simp [fsUpdate]

/-- The request-boundary safety net of `ServeHTTP` (`fileserver.go` lines
128-132): a panic during handling is recovered and converted into
`http.Error(w, err, 500)`; otherwise the handler's own response stands. -/
inductive FinalResponse where
  | handlerReturn
  | recovered500 (msg : String)
deriving DecidableEq

/-- What `ServeHTTP` produced for one request: the trace and filesystem
state left by the handler, the final response disposition, and whether the
process is still serving (the recover prevents termination). -/
structure ServeResult where
  events : List Event
  files : String → Option (List Nat)
  response : FinalResponse
  processAlive : Bool

/-- The deferred `recover` wrapper of `ServeHTTP`: a panic value is turned
into a generic 500 `http.Error`; the state the handler left (its trace and
filesystem effects) is passed through untouched — no rollback of partially
written state is attempted — and the process keeps serving. -/
def recoverWrap (o : HandlerOutcome) : ServeResult :=
  match o.panicked with
  | some e =>
      { events := o.events, files := o.files,
        response := .recovered500 e, processAlive := true }
  | none =>
      { events := o.events, files := o.files,
        response := .handlerReturn, processAlive := true }

/-- The method switch of `ServeHTTP` (`fileserver.go` lines 134-139): GET
goes to `handler`, POST to `upload`, and any other method matches no case,
so nothing runs. -/
def dispatch (fs : FileServer) (req : Request) (openRes : String → OpenResult)
    (env : UploadEnv) (disk : String → Option (List Nat)) : HandlerOutcome :=
  if req.method = "GET" then
    { events := handler fs req openRes, files := disk, panicked := none }
  else if req.method = "POST" then
    upload fs req env disk
  else
    { events := [], files := disk, panicked := none }

/-- `ServeHTTP` (`fileserver.go` lines 127-140): the method dispatch inside
the recover wrapper. -/
def serveHTTP (fs : FileServer) (req : Request) (openRes : String → OpenResult)
    (env : UploadEnv) (disk : String → Option (List Nat)) : ServeResult :=
  recoverWrap (dispatch fs req openRes env disk)

/-- C8: whatever a request's handling did before raising a panic-class
fault, the request-boundary recover converts the fault into a generic 500
`http.Error` response, the process keeps serving, and the state the handler
left behind is passed through exactly as it was — no recovery of partially
written state is attempted. -/
theorem goshs_C8_recover (o : HandlerOutcome) (e : String)
    (h : o.panicked = some e) :
    recoverWrap o =
      { events := o.events, files := o.files,
        response := .recovered500 e, processAlive := true } := by
  simp [recoverWrap, h]

/-- Witness for C8 at a concrete panicking outcome. -/
theorem goshs_C8_recover_witness :
    recoverWrap ⟨[], fun _ => none, some "boom"⟩ =
      { events := [], files := fun _ => none,
        response := .recovered500 "boom", processAlive := true } :=
  goshs_C8_recover ⟨[], fun _ => none, some "boom"⟩ "boom" rfl

/-- C9: a request whose method is neither GET nor POST matches no case of
the `ServeHTTP` switch: no handler runs, the trace is empty (no access-log
entry, no response body write), the filesystem is unchanged, and the
response disposition is the handler returning without writing — the
transport's default empty 200. -/
theorem goshs_C9_other_methods (fs : FileServer) (req : Request)
    (openRes : String → OpenResult) (env : UploadEnv)
    (disk : String → Option (List Nat))
    (hget : req.method ≠ "GET") (hpost : req.method ≠ "POST") :
    serveHTTP fs req openRes env disk =
      { events := [], files := disk,
        response := .handlerReturn, processAlive := true } := by
  simp [serveHTTP, dispatch, recoverWrap, hget, hpost]

/-- Witness for C9 at a concrete PUT request. -/
theorem goshs_C9_other_methods_witness :
    serveHTTP ⟨8000, "/srv", false, false, "", "", ""⟩
      ⟨"1.2.3.4:5", "PUT", "/docs/x", "HTTP/1.1"⟩
      (fun _ => .notExist) ⟨none, true, true, true⟩ (fun _ => none) =
      { events := [], files := fun _ => none,
        response := .handlerReturn, processAlive := true } :=
  goshs_C9_other_methods ⟨8000, "/srv", false, false, "", "", ""⟩
    ⟨"1.2.3.4:5", "PUT", "/docs/x", "HTTP/1.1"⟩
    (fun _ => .notExist) ⟨none, true, true, true⟩ (fun _ => none)
    (by decide) (by decide)

/-- C10: a POST whose multipart body has no `"file"` part makes `FormFile`
return an error with nil handles; the error is only logged, the ensuing nil
dereference panics (the deferred `Close` on the nil file panicking during
unwinding is what the recover receives), and the request-boundary recover
turns it into a generic 500 — the filesystem is untouched (no destination
file created) and the trace holds only the log line, in particular no 303
redirect. -/
theorem goshs_C10_missing_file_part (fs : FileServer) (req : Request)
    (openRes : String → OpenResult) (env : UploadEnv)
    (disk : String → Option (List Nat))
    (hm : req.method = "POST") (hf : env.formFile = none) :
    serveHTTP fs req openRes env disk =
      { events := [.logErr "Error retrieving the file"], files := disk,
        response := .recovered500
          "runtime error: invalid memory address or nil pointer dereference",
        processAlive := true } := by
  simp [serveHTTP, dispatch, recoverWrap, upload, hm, hf]

/-- Witness for C10 at a concrete POST with no file part. -/
theorem goshs_C10_missing_file_part_witness :
    serveHTTP ⟨8000, "/srv", false, false, "", "", ""⟩
      ⟨"1.2.3.4:5", "POST", "/docs/", "HTTP/1.1"⟩
      (fun _ => .notExist) ⟨none, true, true, true⟩ (fun _ => none) =
      { events := [.logErr "Error retrieving the file"], files := fun _ => none,
        response := .recovered500
          "runtime error: invalid memory address or nil pointer dereference",
        processAlive := true } :=
  goshs_C10_missing_file_part ⟨8000, "/srv", false, false, "", "", ""⟩
    ⟨"1.2.3.4:5", "POST", "/docs/", "HTTP/1.1"⟩
    (fun _ => .notExist) ⟨none, true, true, true⟩ (fun _ => none) rfl rfl

end Goshs
